import Mathlib

/-!
Verification of the Tabular Review extraction orchestration core.

This file is a shallow embedding of the TypeScript source:
* the data model (`types` section of the app source),
* the Result Store (the `results` React state and its updaters),
* the Task Planner and Run Controller (`processExtraction`),
* the re-run / stop / remove-document / verify handlers,
* the CSV export renderer (`handleExportCSV`),
* the column-library merge (`mergeLibraries` in `utils/fileStorage.ts`).

JavaScript objects keyed by id strings are embedded as functions
`String → Option _`; a key that is absent, and a key whose stored value is
`null`, are both embedded as `none` (the source only ever inspects cells
through truthiness, so the two are indistinguishable to every modelled
operation).  React `setX(prev => ...)` functional updaters are applied
sequentially to the latest state, so each updater is embedded as an atomic
state transformation.
-/

namespace TabularReview

/-! ## Data model (types section of the app source) -/

inductive ColumnType
  | text
  | number
  | date
  | boolean
  | list
deriving DecidableEq, Repr

inductive ColumnStatus
  | idle
  | extracting
  | completed
  | error
deriving DecidableEq, Repr

structure Column where
  id : String
  name : String
  type : ColumnType
  prompt : String
  status : ColumnStatus
  width : Option Nat
deriving DecidableEq, Repr

structure DocumentFile where
  id : String
  name : String
  type : String
  size : Nat
  content : String
  mimeType : String
deriving DecidableEq, Repr

inductive Confidence
  | high
  | medium
  | low
deriving DecidableEq, Repr

inductive ReviewStatus
  | verified
  | needsReview
  | edited
deriving DecidableEq, Repr

structure ExtractionCell where
  value : String
  confidence : Confidence
  quote : String
  page : Nat
  reasoning : String
  status : Option ReviewStatus
deriving DecidableEq, Repr

/-- One document's row of the Result Store: `{[colId]: ExtractionCell | null}`.
`none` covers both an absent key and an explicit `null` cell. -/
abbrev DocResults := String → Option ExtractionCell

/-- The Result Store: `{[docId]: {[colId]: ExtractionCell | null}}`. -/
abbrev ExtractionResult := String → Option DocResults

def emptyResults : ExtractionResult := fun _ => none

/-- `results[docId]?.[colId]` — the optional-chained cell lookup the source
uses everywhere. -/
def lookupCell (r : ExtractionResult) (docId colId : String) : Option ExtractionCell :=
  match r docId with
  | none => none
  | some row => row colId

/-! ## Result Store merge

`processExtraction`'s per-task success path:

```
setResults(prev => ({
  ...prev,
  [doc.id]: { ...(prev[doc.id] || {}), [col.id]: data }
}));
```

The updater reads `prev` (the latest store), so the whole merge is one atomic
store transformation. -/

def mergeResult (prev : ExtractionResult) (docId colId : String)
    (data : ExtractionCell) : ExtractionResult :=
  fun d =>
    if d = docId then
      some (fun c =>
        if c = colId then some data
        else ((prev docId).getD (fun _ => none)) c)
    else prev d

/-! ## Task Planner

`processExtraction` lines that flatten the work items:

```
const tasks: { doc: DocumentFile; col: Column }[] = [];
for (const doc of docsToProcess) {
  for (const col of colsToProcess) {
    if (forceOverwrite || !results[doc.id]?.[col.id]) {
      tasks.push({ doc, col });
    }
  }
}
```
-/

def planTasks (docsToProcess : List DocumentFile) (colsToProcess : List Column)
    (results : ExtractionResult) (forceOverwrite : Bool) :
    List (DocumentFile × Column) :=
  docsToProcess.flatMap (fun doc =>
    (colsToProcess.filter (fun col =>
      forceOverwrite || (lookupCell results doc.id col.id).isNone)).map
      (fun col => (doc, col)))

/-! ## Claims C1 and C2 -/

/-- **C1**: The task planner is exact: with `overwrite=false` it returns
exactly the pairs `(d, c)` of the target document set × column set for
which the Result Store holds no non-null cell, and with `overwrite=true`
it returns all such pairs. -/
theorem planner_exact (docs : List DocumentFile) (cols : List Column)
    (results : ExtractionResult) (d : DocumentFile) (c : Column) :
    ((d, c) ∈ planTasks docs cols results false ↔
      d ∈ docs ∧ c ∈ cols ∧ lookupCell results d.id c.id = none) ∧
    ((d, c) ∈ planTasks docs cols results true ↔ d ∈ docs ∧ c ∈ cols) := by
  constructor
  · simp only [planTasks, List.mem_flatMap, List.mem_map, List.mem_filter,
      Bool.false_or, Option.isNone_iff_eq_none, Prod.mk.injEq]
    constructor
    · rintro ⟨doc, hdoc, col, ⟨hcol, hcond⟩, hd, hc⟩
      subst hd; subst hc
      simp_all
    · rintro ⟨h1, h2, h3⟩
      exact ⟨d, h1, c, ⟨h2, by simp_all⟩, rfl, rfl⟩
  · simp only [planTasks, List.mem_flatMap, List.mem_map, List.mem_filter,
      Bool.true_or, Prod.mk.injEq]
    constructor
    · rintro ⟨doc, hdoc, col, ⟨hcol, -⟩, hd, hc⟩
      subst hd; subst hc
      exact ⟨hdoc, hcol⟩
    · rintro ⟨h1, h2⟩
      exact ⟨d, h1, c, ⟨h2, trivial⟩, rfl, rfl⟩

/-- **C2**: Merge isolation: merging `(doc1, colA, cellX)` and
`(doc1, colB, cellY)` for distinct columns `colA ≠ colB`, in either order,
yields a store holding both cells — neither merge drops the other's write,
even though both target the same document.  (Each merge is an atomic
functional updater over the latest store, which is exactly why the source's
`setResults(prev => ...)` form loses no writes.) -/
theorem merge_isolation (R : ExtractionResult) (doc1 colA colB : String)
    (cellX cellY : ExtractionCell) (h : colA ≠ colB) :
    (lookupCell (mergeResult (mergeResult R doc1 colA cellX) doc1 colB cellY)
        doc1 colA = some cellX ∧
     lookupCell (mergeResult (mergeResult R doc1 colA cellX) doc1 colB cellY)
        doc1 colB = some cellY) ∧
    (lookupCell (mergeResult (mergeResult R doc1 colB cellY) doc1 colA cellX)
        doc1 colA = some cellX ∧
     lookupCell (mergeResult (mergeResult R doc1 colB cellY) doc1 colA cellX)
        doc1 colB = some cellY) := by
  have h' : colB ≠ colA := fun e => h e.symm
  simp [lookupCell, mergeResult, h, h']

def sampleCellX : ExtractionCell :=
  { value := "42", confidence := Confidence.high, quote := "q", page := 1,
    reasoning := "r", status := none }

def sampleCellY : ExtractionCell :=
  { value := "7", confidence := Confidence.low, quote := "p", page := 2,
    reasoning := "s", status := none }

/-- Witness for C2 at a concrete store and concrete distinct columns. -/
theorem merge_isolation_witness :
    ("colA" : String) ≠ "colB" ∧
    (lookupCell (mergeResult (mergeResult emptyResults "doc1" "colA" sampleCellX)
        "doc1" "colB" sampleCellY) "doc1" "colA" = some sampleCellX ∧
     lookupCell (mergeResult (mergeResult emptyResults "doc1" "colA" sampleCellX)
        "doc1" "colB" sampleCellY) "doc1" "colB" = some sampleCellY) :=
  ⟨by decide,
   (merge_isolation emptyResults "doc1" "colA" "colB" sampleCellX sampleCellY
      (by decide)).1⟩

/-! ## Run Controller: concurrent fan-out with cooperative cancellation

`processExtraction` dispatches every planned task at once:

```
const promises = tasks.map(async ({ doc, col }) => {
    if (controller.signal.aborted) return;            // check at task start
    try {
        const data = await extractColumnData(doc, col, selectedModel);
        if (controller.signal.aborted) return;        // check after the call
        setResults(prev => ({ ...prev, [doc.id]: { ... , [col.id]: data } }));
    } catch (e) {
        console.error(...);                           // failure: log only
    }
});
await Promise.all(promises);
```

and `handleStopExtraction` aborts the controller and clears the processing
flag.  Tasks run as cooperatively-interleaved async operations on one logical
thread; each atomic segment of a task (start-check, and post-await
check+merge) is one step of a small-step relation, and an execution of the
run is an arbitrary schedule of such steps.  Each task carries its client
outcome as an oracle: `some data` for a successful `extractColumnData` call,
`none` for a rejected one. -/

structure ExtractTask where
  docId : String
  colId : String
  outcome : Option ExtractionCell
deriving DecidableEq, Repr

inductive Phase
  | notStarted
  | inFlight
  | discarded
  | merged
  | failed
deriving DecidableEq, Repr

inductive Event
  | taskStart (i : Nat)
  | taskResolve (i : Nat)
  | stop
deriving DecidableEq, Repr

structure RunState where
  results : ExtractionResult
  aborted : Bool
  processing : Bool
  phases : Nat → Phase

def updPhase (f : Nat → Phase) (i : Nat) (p : Phase) : Nat → Phase :=
  fun j => if j = i then p else f j

/-- One atomic step of the run.
* `taskStart i`: the synchronous prefix of task `i`'s async body — the
  start-of-task abort check, then the `extractColumnData` call is issued.
* `taskResolve i`: task `i`'s client call settles — on rejection the catch
  block only logs; on success the post-await abort check runs and, if not
  aborted, the cell is merged atomically.
* `stop`: `handleStopExtraction` — signals the token and clears the
  processing flag. -/
def step (tasks : List ExtractTask) (s : RunState) (e : Event) : RunState :=
  match e with
  | Event.stop => { s with aborted := true, processing := false }
  | Event.taskStart i =>
    match tasks[i]? with
    | none => s
    | some _ =>
      if s.phases i = Phase.notStarted then
        if s.aborted then { s with phases := updPhase s.phases i Phase.discarded }
        else { s with phases := updPhase s.phases i Phase.inFlight }
      else s
  | Event.taskResolve i =>
    match tasks[i]? with
    | none => s
    | some t =>
      if s.phases i = Phase.inFlight then
        match t.outcome with
        | none => { s with phases := updPhase s.phases i Phase.failed }
        | some data =>
          if s.aborted then { s with phases := updPhase s.phases i Phase.discarded }
          else { s with
                  results := mergeResult s.results t.docId t.colId data,
                  phases := updPhase s.phases i Phase.merged }
      else s

def runSchedule (tasks : List ExtractTask) (s : RunState) (events : List Event) :
    RunState :=
  events.foldl (step tasks) s

/-- The state at run start: current Result Store, a fresh (unsignaled)
cancellation token, the processing flag set, no task dispatched yet. -/
def initState (results : ExtractionResult) : RunState :=
  { results := results, aborted := false, processing := true,
    phases := fun _ => Phase.notStarted }

/-- A phase update keeps position `i` away from `merged` as long as neither
the old value at `i` nor the written value is `merged`. -/
theorem updPhase_ne_merged (f : Nat → Phase) (j : Nat) (p : Phase) (i : Nat)
    (hp : p ≠ Phase.merged) (hf : f i ≠ Phase.merged) :
    updPhase f j p i ≠ Phase.merged := by
  unfold updPhase
  split
  · exact hp
  · exact hf

/-- Once the token is signaled, no step clears it. -/
theorem step_aborted (tasks : List ExtractTask) (s : RunState) (e : Event)
    (h : s.aborted = true) : (step tasks s e).aborted = true := by
  cases e with
  | stop => rfl
  | taskStart i =>
    simp only [step]
    cases htask : tasks[i]? with
    | none => exact h
    | some t =>
      dsimp only
      split
      · simp [h]
      · exact h
  | taskResolve i =>
    simp only [step]
    cases htask : tasks[i]? with
    | none => exact h
    | some t =>
      dsimp only
      split
      · cases hout : t.outcome with
        | none => exact h
        | some data => simp [h]
      · exact h

/-- If the token is signaled and task `i` has not merged, no step can make it
merged. -/
theorem step_ne_merged_of_aborted (tasks : List ExtractTask) (s : RunState)
    (e : Event) (i : Nat) (ha : s.aborted = true)
    (hm : s.phases i ≠ Phase.merged) : (step tasks s e).phases i ≠ Phase.merged := by
  cases e with
  | stop => exact hm
  | taskStart j =>
    simp only [step]
    repeat' split
    all_goals
      first
        | exact hm
        | exact updPhase_ne_merged s.phases j _ i (by decide) hm
  | taskResolve j =>
    simp only [step]
    repeat' split
    all_goals
      first
        | exact hm
        | exact updPhase_ne_merged s.phases j _ i (by decide) hm

/-- If an event is not task `i`'s resolution, it cannot make task `i` merged. -/
theorem step_ne_merged_of_ne_resolve (tasks : List ExtractTask) (s : RunState)
    (e : Event) (i : Nat) (he : e ≠ Event.taskResolve i)
    (hm : s.phases i ≠ Phase.merged) : (step tasks s e).phases i ≠ Phase.merged := by
  cases e with
  | stop => exact hm
  | taskStart j =>
    simp only [step]
    repeat' split
    all_goals
      first
        | exact hm
        | exact updPhase_ne_merged s.phases j _ i (by decide) hm
  | taskResolve j =>
    have hij : i ≠ j := fun hcon => he (by rw [hcon])
    simp only [step]
    repeat' split
    all_goals
      first
        | exact hm
        | (show updPhase s.phases j _ i ≠ Phase.merged
           unfold updPhase
           rw [if_neg hij]
           exact hm)

/-- `runSchedule` preserves a signaled token. -/
theorem runSchedule_aborted (tasks : List ExtractTask) (events : List Event)
    (s : RunState) (h : s.aborted = true) :
    (runSchedule tasks s events).aborted = true := by
  induction events generalizing s with
  | nil => exact h
  | cons e rest ih => exact ih (step tasks s e) (step_aborted tasks s e h)

/-- After the token is signaled, a task that has not merged never becomes
merged. -/
theorem runSchedule_ne_merged_of_aborted (tasks : List ExtractTask)
    (events : List Event) (s : RunState) (i : Nat) (ha : s.aborted = true)
    (hm : s.phases i ≠ Phase.merged) :
    (runSchedule tasks s events).phases i ≠ Phase.merged := by
  induction events generalizing s with
  | nil => exact hm
  | cons e rest ih =>
    exact ih (step tasks s e) (step_aborted tasks s e ha)
      (step_ne_merged_of_aborted tasks s e i ha hm)

/-- A schedule not containing task `i`'s resolution leaves it unmerged. -/
theorem runSchedule_ne_merged_of_not_resolve (tasks : List ExtractTask)
    (events : List Event) (s : RunState) (i : Nat)
    (hres : Event.taskResolve i ∉ events) (hm : s.phases i ≠ Phase.merged) :
    (runSchedule tasks s events).phases i ≠ Phase.merged := by
  induction events generalizing s with
  | nil => exact hm
  | cons e rest ih =>
    have he : e ≠ Event.taskResolve i := fun hcon => hres (by rw [hcon]; exact List.mem_cons_self _ _)
    have hrest : Event.taskResolve i ∉ rest := fun hcon => hres (List.mem_cons_of_mem _ hcon)
    exact ih (step tasks s e) hrest
      (step_ne_merged_of_ne_resolve tasks s e i he hm)

/-- **C3**: Cancellation discards: in any execution of a run in which
`stop()` is signaled before task `i`'s Extraction Client call resolves, the
task never reaches the merged phase — its eventual successful result is
never merged into the Result Store.  Moreover (second conjunct) a signaled
token at either checkpoint — task start, or resolution of the client call —
makes the task a no-op on the shared store. -/
theorem cancellation_discards (tasks : List ExtractTask)
    (R : ExtractionResult) (pre post : List Event) (i : Nat)
    (hres : Event.taskResolve i ∉ pre) :
    ((runSchedule tasks (initState R) (pre ++ Event.stop :: post)).phases i ≠
        Phase.merged) ∧
    (∀ s : RunState, s.aborted = true →
      (step tasks s (Event.taskStart i)).results = s.results ∧
      (step tasks s (Event.taskResolve i)).results = s.results) := by
  constructor
  · have hsplit : runSchedule tasks (initState R) (pre ++ Event.stop :: post) =
        runSchedule tasks
          (step tasks (runSchedule tasks (initState R) pre) Event.stop) post := by
      simp [runSchedule, List.foldl_append]
    rw [hsplit]
    set s1 := runSchedule tasks (initState R) pre with hs1
    have hm1 : s1.phases i ≠ Phase.merged := by
      apply runSchedule_ne_merged_of_not_resolve tasks pre (initState R) i hres
      simp [initState]
    have hstop : (step tasks s1 Event.stop).aborted = true := by simp [step]
    have hmstop : (step tasks s1 Event.stop).phases i ≠ Phase.merged := by
      simpa [step] using hm1
    exact runSchedule_ne_merged_of_aborted tasks post _ i hstop hmstop
  · intro s ha
    constructor
    · simp only [step]
      repeat' split
      all_goals simp_all
    · simp only [step]
      repeat' split
      all_goals simp_all

def sampleTask : ExtractTask :=
  { docId := "A", colId := "X", outcome := some sampleCellX }

/-- Witness for C3: a run of one task, started, then stopped, then resolving;
the task ends unmerged. -/
theorem cancellation_discards_witness :
    (Event.taskResolve 0 ∉ [Event.taskStart 0]) ∧
    ((runSchedule [sampleTask] (initState emptyResults)
        ([Event.taskStart 0] ++ Event.stop :: [Event.taskResolve 0])).phases 0 ≠
      Phase.merged) :=
  ⟨by decide,
   (cancellation_discards [sampleTask] emptyResults [Event.taskStart 0]
      [Event.taskResolve 0] 0 (by decide)).1⟩

/-- **C8**: Task failure isolation: if task `i`'s Extraction Client call
fails (the catch block only logs), its steps write no cell into the Result
Store, never signal the token, and leave every other task's phase — hence
that task's eventual outcome — untouched. -/
theorem task_failure_isolation (tasks : List ExtractTask) (t : ExtractTask)
    (i : Nat) (htask : tasks[i]? = some t) (hfail : t.outcome = none)
    (s : RunState) :
    ((step tasks s (Event.taskResolve i)).results = s.results ∧
     (step tasks s (Event.taskResolve i)).aborted = s.aborted ∧
     (∀ j, j ≠ i → (step tasks s (Event.taskResolve i)).phases j = s.phases j)) ∧
    ((step tasks s (Event.taskStart i)).results = s.results ∧
     (step tasks s (Event.taskStart i)).aborted = s.aborted ∧
     (∀ j, j ≠ i → (step tasks s (Event.taskStart i)).phases j = s.phases j)) := by
  constructor
  · simp only [step, htask, hfail]
    split
    · exact ⟨rfl, rfl, fun j hj => by simp [updPhase, hj]⟩
    · exact ⟨rfl, rfl, fun j hj => rfl⟩
  · simp only [step, htask]
    split
    · split
      · exact ⟨rfl, rfl, fun j hj => by simp [updPhase, hj]⟩
      · exact ⟨rfl, rfl, fun j hj => by simp [updPhase, hj]⟩
    · exact ⟨rfl, rfl, fun j hj => rfl⟩

def sampleFailedTask : ExtractTask :=
  { docId := "A", colId := "X", outcome := none }

/-- Witness for C8 at a concrete failing task and state. -/
theorem task_failure_isolation_witness :
    ([sampleFailedTask][0]? = some sampleFailedTask) ∧
    (sampleFailedTask.outcome = none) ∧
    ((step [sampleFailedTask] (initState emptyResults)
        (Event.taskResolve 0)).results = (initState emptyResults).results ∧
     (step [sampleFailedTask] (initState emptyResults)
        (Event.taskResolve 0)).aborted = (initState emptyResults).aborted ∧
     (∀ j, j ≠ 0 → (step [sampleFailedTask] (initState emptyResults)
        (Event.taskResolve 0)).phases j = (initState emptyResults).phases j)) :=
  ⟨by decide, by decide,
   (task_failure_isolation [sampleFailedTask] sampleFailedTask 0 (by decide)
      (by decide) (initState emptyResults)).1⟩

/-! ## Column status transitions of the Run Controller

`processExtraction`'s status writes:

```
// at run start
setColumns(prev => prev.map(c =>
  colsToProcess.some(target => target.id === c.id) ? { ...c, status: 'extracting' } : c));
...
// after Promise.all, when the token was never signaled
if (!controller.signal.aborted) {
  setColumns(prev => prev.map(c =>
    colsToProcess.some(target => target.id === c.id) ? { ...c, status: 'completed' } : c));
}
// finally, when this run is still the active controller
if (abortControllerRef.current === controller) {
  ...
  setColumns(prev => prev.map(c =>
    c.status === 'extracting' ? { ...c, status: 'idle' } : c));
}
```

`stop()` does not replace the active controller, so a run that is cancelled
by `stop()` (rather than superseded by a newer `processExtraction` call) is
still the active controller when its fan-out drains. -/

/-- `colsToProcess.some(target => target.id === c.id) ? {...c, status: 'extracting'} : c` -/
def extractingCol (targets : List Column) (c : Column) : Column :=
  if targets.any (fun target => target.id == c.id) then
    { c with status := ColumnStatus.extracting }
  else c

/-- `colsToProcess.some(target => target.id === c.id) ? {...c, status: 'completed'} : c` -/
def completedCol (targets : List Column) (c : Column) : Column :=
  if targets.any (fun target => target.id == c.id) then
    { c with status := ColumnStatus.completed }
  else c

/-- `c.status === 'extracting' ? {...c, status: 'idle'} : c` -/
def resetCol (c : Column) : Column :=
  if c.status == ColumnStatus.extracting then
    { c with status := ColumnStatus.idle }
  else c

def markExtracting (cols : List Column) (targets : List Column) : List Column :=
  cols.map (extractingCol targets)

def markCompleted (cols : List Column) (targets : List Column) : List Column :=
  cols.map (completedCol targets)

def resetExtracting (cols : List Column) : List Column :=
  cols.map resetCol

@[simp] theorem extractingCol_id (targets : List Column) (c : Column) :
    (extractingCol targets c).id = c.id := by
  unfold extractingCol
  split <;> rfl

@[simp] theorem completedCol_id (targets : List Column) (c : Column) :
    (completedCol targets c).id = c.id := by
  unfold completedCol
  split <;> rfl

@[simp] theorem resetCol_id (c : Column) : (resetCol c).id = c.id := by
  unfold resetCol
  split <;> rfl

theorem extractingCol_status_of_target (targets : List Column) (c : Column)
    (h : ∃ target ∈ targets, target.id = c.id) :
    (extractingCol targets c).status = ColumnStatus.extracting := by
  unfold extractingCol
  obtain ⟨target, ht, hid⟩ := h
  have hany : (targets.any fun target => target.id == c.id) = true :=
    List.any_eq_true.mpr ⟨target, ht, by simp [hid]⟩
  rw [if_pos hany]

theorem completedCol_status_of_target (targets : List Column) (c : Column)
    (h : ∃ target ∈ targets, target.id = c.id) :
    (completedCol targets c).status = ColumnStatus.completed := by
  unfold completedCol
  obtain ⟨target, ht, hid⟩ := h
  have hany : (targets.any fun target => target.id == c.id) = true :=
    List.any_eq_true.mpr ⟨target, ht, by simp [hid]⟩
  rw [if_pos hany]

theorem resetCol_of_ne (c : Column) (h : c.status ≠ ColumnStatus.extracting) :
    resetCol c = c := by
  unfold resetCol
  rw [if_neg (by simpa using h)]

theorem resetCol_status_ne (c : Column) :
    (resetCol c).status ≠ ColumnStatus.extracting := by
  unfold resetCol
  split
  · intro h
    exact ColumnStatus.noConfusion h
  · next hc => simpa using hc

theorem resetCol_status_of_extracting (c : Column)
    (h : c.status = ColumnStatus.extracting) :
    (resetCol c).status = ColumnStatus.idle := by
  unfold resetCol
  rw [if_pos (by simpa using h)]

theorem extractingCol_error (targets : List Column) (c : Column)
    (h : (extractingCol targets c).status = ColumnStatus.error) :
    c.status = ColumnStatus.error := by
  unfold extractingCol at h
  split at h
  · exact ColumnStatus.noConfusion h
  · exact h

theorem completedCol_error (targets : List Column) (c : Column)
    (h : (completedCol targets c).status = ColumnStatus.error) :
    c.status = ColumnStatus.error := by
  unfold completedCol at h
  split at h
  · exact ColumnStatus.noConfusion h
  · exact h

theorem resetCol_error (c : Column)
    (h : (resetCol c).status = ColumnStatus.error) :
    c.status = ColumnStatus.error := by
  unfold resetCol at h
  split at h
  · exact ColumnStatus.noConfusion h
  · exact h

/-- The end-of-run status cleanup (`if (!aborted) setCompleted; finally if
still current, reset extracting → idle`). -/
def finalizeColumns (cols : List Column) (targets : List Column)
    (aborted stillCurrent : Bool) : List Column :=
  let afterComplete := if aborted then cols else markCompleted cols targets
  if stillCurrent then resetExtracting afterComplete else afterComplete

/-- The whole run's effect on column statuses: mark the target set
`extracting` at start, then finalize once the fan-out has drained. -/
def runColumns (cols : List Column) (targets : List Column)
    (aborted stillCurrent : Bool) : List Column :=
  finalizeColumns (markExtracting cols targets) targets aborted stillCurrent

/-- **C4**: Column status finalization, for a run that is still the active
controller when its tasks drain (true whenever the run was not superseded;
in particular both for an uninterrupted run and for one cancelled by
`stop()`): if the token was never signaled, every target column ends
`completed`; if it was signaled, no column is left `extracting` and every
target column is reset to `idle`; and the controller never assigns `error` —
an `error` status in the output can only have been an `error` already
present in the input columns. -/
theorem column_status_finalization (cols : List Column) (targets : List Column) :
    (∀ c' ∈ runColumns cols targets false true,
      (∃ target ∈ targets, target.id = c'.id) →
        c'.status = ColumnStatus.completed) ∧
    (∀ c' ∈ runColumns cols targets true true,
      c'.status ≠ ColumnStatus.extracting) ∧
    (∀ c' ∈ runColumns cols targets true true,
      (∃ target ∈ targets, target.id = c'.id) → c'.status = ColumnStatus.idle) ∧
    (∀ aborted stillCurrent : Bool,
      ∀ c' ∈ runColumns cols targets aborted stillCurrent,
        c'.status = ColumnStatus.error →
          ∃ c ∈ cols, c.id = c'.id ∧ c.status = ColumnStatus.error) := by
  refine ⟨?_, ?_, ?_, ?_⟩
  · intro c' hmem htarget
    simp only [runColumns, finalizeColumns, markExtracting, markCompleted,
      resetExtracting, Bool.false_eq_true, if_false, if_true, List.map_map,
      List.mem_map, Function.comp] at hmem
    obtain ⟨c, hc, rfl⟩ := hmem
    simp only [resetCol_id, completedCol_id, extractingCol_id] at htarget
    have h1 : (completedCol targets (extractingCol targets c)).status =
        ColumnStatus.completed :=
      completedCol_status_of_target targets _ (by simpa using htarget)
    rw [resetCol_of_ne _ (by rw [h1]; exact fun h => ColumnStatus.noConfusion h)]
    exact h1
  · intro c' hmem
    simp only [runColumns, finalizeColumns, markExtracting, resetExtracting,
      if_true, List.map_map, List.mem_map, Function.comp] at hmem
    obtain ⟨c, hc, rfl⟩ := hmem
    exact resetCol_status_ne _
  · intro c' hmem htarget
    simp only [runColumns, finalizeColumns, markExtracting, resetExtracting,
      if_true, List.map_map, List.mem_map, Function.comp] at hmem
    obtain ⟨c, hc, rfl⟩ := hmem
    simp only [resetCol_id, extractingCol_id] at htarget
    exact resetCol_status_of_extracting _
      (extractingCol_status_of_target targets c (by simpa using htarget))
  · intro aborted stillCurrent c' hmem herr
    cases aborted <;> cases stillCurrent <;>
      simp only [runColumns, finalizeColumns, markExtracting, markCompleted,
        resetExtracting, Bool.false_eq_true, if_false, if_true, List.map_map,
        List.mem_map, Function.comp] at hmem <;>
      obtain ⟨c, hc, rfl⟩ := hmem
    · exact ⟨c, hc, by simp, extractingCol_error targets c
        (completedCol_error targets _ herr)⟩
    · exact ⟨c, hc, by simp, extractingCol_error targets c
        (completedCol_error targets _ (resetCol_error _ herr))⟩
    · exact ⟨c, hc, by simp, extractingCol_error targets c herr⟩
    · exact ⟨c, hc, by simp, extractingCol_error targets c (resetCol_error _ herr)⟩

def sampleColX : Column :=
  { id := "colX", name := "X", type := ColumnType.text, prompt := "extract X",
    status := ColumnStatus.idle, width := none }

def sampleColXCompleted : Column :=
  { sampleColX with status := ColumnStatus.completed }

/-- Witness for C4 at a single idle target column: an uninterrupted run
leaves it `completed`. -/
theorem column_status_finalization_witness :
    (sampleColXCompleted ∈ runColumns [sampleColX] [sampleColX] false true ∧
     ∃ target ∈ [sampleColX], target.id = sampleColXCompleted.id) ∧
    sampleColXCompleted.status = ColumnStatus.completed :=
  ⟨⟨by decide, by decide⟩,
   (column_status_finalization [sampleColX] [sampleColX]).1 sampleColXCompleted
     (by decide) (by decide)⟩

/-! ## Scoped re-run (`handleRerunSelected`)

```
const selectedDocs = documents.filter(d => selectedDocIds.has(d.id));
setResults(prev => {
  const next = { ...prev };
  selectedDocIds.forEach(docId => { delete next[docId]; });
  return next;
});
processExtraction(selectedDocs, columns, true);
```
-/

def selectedDocuments (documents : List DocumentFile)
    (selectedDocIds : List String) : List DocumentFile :=
  documents.filter (fun d => selectedDocIds.contains d.id)

def clearDocsResults (results : ExtractionResult)
    (selectedDocIds : List String) : ExtractionResult :=
  fun d => if selectedDocIds.contains d then none else results d

/-- The cumulative effect on the Result Store of any sequence of completed
merges of a run, in completion order. -/
def applyMerges (r : ExtractionResult)
    (ms : List (String × String × ExtractionCell)) : ExtractionResult :=
  ms.foldl (fun acc m => mergeResult acc m.1 m.2.1 m.2.2) r

/-- A merge touches no other document's entries. -/
theorem mergeResult_ne (r : ExtractionResult) (docId colId : String)
    (data : ExtractionCell) (d : String) (h : d ≠ docId) :
    mergeResult r docId colId data d = r d := by
  unfold mergeResult
  rw [if_neg h]

/-- Merges that all target other documents leave a document's entries
unchanged. -/
theorem applyMerges_ne (ms : List (String × String × ExtractionCell))
    (r : ExtractionResult) (d : String) (h : ∀ m ∈ ms, m.1 ≠ d) :
    applyMerges r ms d = r d := by
  induction ms generalizing r with
  | nil => rfl
  | cons m rest ih =>
    have hd : d ≠ m.1 := fun hc => h m (List.mem_cons_self _ _) hc.symm
    calc applyMerges r (m :: rest) d
        = applyMerges (mergeResult r m.1 m.2.1 m.2.2) rest d := rfl
      _ = mergeResult r m.1 m.2.1 m.2.2 d :=
          ih _ (fun m' hm' => h m' (List.mem_cons_of_mem _ hm'))
      _ = r d := mergeResult_ne r m.1 m.2.1 m.2.2 d hd

/-- **C5**: Scoped re-run: the re-run first deletes every Result Store entry
of every selected document, the run it then starts with `overwrite=true` is
restricted to the selected documents (every planned task's document is
selected), and a document outside the selection keeps exactly its original
entries through the whole re-run — the deletion skips it and every merge of
the run targets a selected document. -/
theorem scoped_rerun (documents : List DocumentFile) (columns : List Column)
    (results : ExtractionResult) (selectedDocIds : List String) :
    (∀ d ∈ selectedDocIds, clearDocsResults results selectedDocIds d = none) ∧
    (∀ p ∈ planTasks (selectedDocuments documents selectedDocIds) columns
        (clearDocsResults results selectedDocIds) true,
      p.1.id ∈ selectedDocIds) ∧
    (∀ ms : List (String × String × ExtractionCell),
      (∀ m ∈ ms, m.1 ∈ selectedDocIds) →
      ∀ d, d ∉ selectedDocIds →
        applyMerges (clearDocsResults results selectedDocIds) ms d =
          results d) := by
  refine ⟨?_, ?_, ?_⟩
  · intro d hd
    unfold clearDocsResults
    rw [if_pos (List.elem_iff.mpr hd)]
  · intro p hp
    simp only [planTasks, List.mem_flatMap, List.mem_map, List.mem_filter,
      Bool.true_or] at hp
    obtain ⟨doc, hdoc, col, ⟨hcol, -⟩, hpdoc⟩ := hp
    have : p.1 = doc := by rw [← hpdoc]
    rw [this]
    exact List.elem_iff.mp (List.mem_filter.mp hdoc).2
  · intro ms hms d hd
    have h1 : applyMerges (clearDocsResults results selectedDocIds) ms d =
        clearDocsResults results selectedDocIds d :=
      applyMerges_ne ms _ d (fun m hm hc => hd (hc ▸ hms m hm))
    rw [h1]
    unfold clearDocsResults
    rw [if_neg (fun hc => hd (List.elem_iff.mp hc))]

def sampleDocA : DocumentFile :=
  { id := "A", name := "a.pdf", type := "application/pdf", size := 10,
    content := "qq", mimeType := "text/markdown" }

def sampleDocB : DocumentFile :=
  { id := "B", name := "b.pdf", type := "application/pdf", size := 20,
    content := "rr", mimeType := "text/markdown" }

/-- A concrete store holding a cell for each of documents A and B in column
colX. -/
def sampleStoreAB : ExtractionResult :=
  mergeResult (mergeResult emptyResults "A" "colX" sampleCellX) "B" "colX"
    sampleCellY

/-- Witness for C5: re-running only document A (with a new cell merged for
it) leaves document B's entries untouched. -/
theorem scoped_rerun_witness :
    ("A" ∈ ["A"] ∧
      clearDocsResults sampleStoreAB ["A"] "A" = none) ∧
    ((∀ m ∈ [("A", "colX", sampleCellY)], m.1 ∈ ["A"]) ∧
      ("B" : String) ∉ ["A"] ∧
      applyMerges (clearDocsResults sampleStoreAB ["A"])
        [("A", "colX", sampleCellY)] "B" = sampleStoreAB "B") :=
  ⟨⟨by decide,
    (scoped_rerun [sampleDocA, sampleDocB] [sampleColX] sampleStoreAB ["A"]).1
      "A" (by decide)⟩,
   ⟨by decide, by decide,
    (scoped_rerun [sampleDocA, sampleDocB] [sampleColX] sampleStoreAB ["A"]).2.2
      [("A", "colX", sampleCellY)] (by decide) "B" (by decide)⟩⟩

/-! ## App state and the remove-document / verify handlers -/

inductive SidebarMode
  | offMode
  | verify
  | chat
deriving DecidableEq, Repr

structure CellSelection where
  docId : String
  colId : String
deriving DecidableEq, Repr

/-- The slice of the app's React state these handlers read or write. -/
structure AppState where
  documents : List DocumentFile
  columns : List Column
  results : ExtractionResult
  sidebarMode : SidebarMode
  selectedCell : Option CellSelection
  previewDocId : Option String

/-- `handleRemoveDoc`:

```
setDocuments(prev => prev.filter(d => d.id !== docId));
setResults(prev => { const next = { ...prev }; delete next[docId]; return next; });
if (selectedCell?.docId === docId) { setSidebarMode('none'); setSelectedCell(null); }
if (previewDocId === docId) { setPreviewDocId(null); setSidebarMode('none'); }
```
-/
def handleRemoveDoc (s : AppState) (docId : String) : AppState :=
  let s1 := { s with
    documents := s.documents.filter (fun d => d.id != docId),
    results := fun d => if d = docId then none else s.results d }
  let s2 :=
    match s.selectedCell with
    | some sel =>
      if sel.docId = docId then
        { s1 with sidebarMode := SidebarMode.offMode, selectedCell := none }
      else s1
    | none => s1
  match s.previewDocId with
  | some p =>
    if p = docId then
      { s2 with previewDocId := none, sidebarMode := SidebarMode.offMode }
    else s2
  | none => s2

/-- **C6**: Deletion cascade: removing document `docId` removes exactly its
entries from the Result Store — the removed document's row is gone, every
other document's row is unchanged — and if the currently inspected cell
selection referred to it, that selection is cleared. -/
theorem deletion_cascade (s : AppState) (docId : String) :
    ((handleRemoveDoc s docId).results docId = none) ∧
    (∀ d, d ≠ docId → (handleRemoveDoc s docId).results d = s.results d) ∧
    (∀ sel, s.selectedCell = some sel → sel.docId = docId →
      (handleRemoveDoc s docId).selectedCell = none) := by
  refine ⟨?_, ?_, ?_⟩
  · unfold handleRemoveDoc
    cases s.selectedCell <;> cases s.previewDocId <;>
      simp only [] <;> repeat' split
    all_goals simp_all
  · intro d hd
    unfold handleRemoveDoc
    cases s.selectedCell <;> cases s.previewDocId <;>
      simp only [] <;> repeat' split
    all_goals simp_all
  · intro sel hsel hdoc
    unfold handleRemoveDoc
    rw [hsel]
    cases s.previewDocId <;> simp only [] <;> repeat' split
    all_goals simp_all

def sampleSelection : CellSelection := { docId := "A", colId := "colX" }

def sampleAppState : AppState :=
  { documents := [sampleDocA, sampleDocB], columns := [sampleColX],
    results := sampleStoreAB, sidebarMode := SidebarMode.verify,
    selectedCell := some sampleSelection, previewDocId := none }

/-- Witness for C6: removing document A from a concrete state keeps B's
entries and clears the selection pointing at A. -/
theorem deletion_cascade_witness :
    ((handleRemoveDoc sampleAppState "A").results "A" = none) ∧
    (("B" : String) ≠ "A" ∧
      (handleRemoveDoc sampleAppState "A").results "B" =
        sampleAppState.results "B") ∧
    (sampleAppState.selectedCell = some sampleSelection ∧
      sampleSelection.docId = "A" ∧
      (handleRemoveDoc sampleAppState "A").selectedCell = none) :=
  ⟨(deletion_cascade sampleAppState "A").1,
   ⟨by decide,
    (deletion_cascade sampleAppState "A").2.1 "B" (by decide)⟩,
   ⟨rfl, by decide,
    (deletion_cascade sampleAppState "A").2.2 sampleSelection rfl (by decide)⟩⟩

/-! ## Verify-cell handler

```
const handleVerifyCell = () => {
  if (!selectedCell) return;
  const { docId, colId } = selectedCell;
  setResults(prev => ({
    ...prev,
    [docId]: {
      ...prev[docId],
      [colId]: { ...prev[docId][colId]!, status: 'verified' }
    }
  }));
};
```

The non-null assertion `prev[docId][colId]!` is an unconditional dereference
of the selected cell; when that cell is absent the spread produces a
malformed object that is not an `ExtractionCell`, so the update is embedded
as a fallible operation returning `none` in that case. -/
/-- The store produced by the successful dereference: the selected cell
re-written with `status: 'verified'`, spread over the existing row and
store. -/
def verifiedStore (prev : ExtractionResult) (docId colId : String)
    (cell : ExtractionCell) : ExtractionResult :=
  fun d =>
    if d = docId then
      some (fun c =>
        if c = colId then some { cell with status := some ReviewStatus.verified }
        else ((prev docId).getD (fun _ => none)) c)
    else prev d

def verifyCellUpdate (prev : ExtractionResult) (docId colId : String) :
    Option ExtractionResult :=
  match lookupCell prev docId colId with
  | none => none
  | some cell => some (verifiedStore prev docId colId cell)

def handleVerifyCell (s : AppState) : Option AppState :=
  match s.selectedCell with
  | none => some s
  | some sel =>
    (verifyCellUpdate s.results sel.docId sel.colId).map
      (fun r => { s with results := r })

/-- **C9**: Verifying a cell is a pure status overlay: with a selected cell
whose Result Store entry is a non-null cell, `handleVerifyCell` sets exactly
that cell's review status to `verified` — keeping its value, confidence,
quote, page and reasoning — and leaves every other `(document, column)`
entry of the store, and the document list, unchanged.  The non-null
precondition is required: with the selection pointing at an absent cell the
unconditional dereference makes the update fail. -/
theorem verify_cell_overlay (s : AppState) (docId colId : String)
    (hsel : s.selectedCell = some { docId := docId, colId := colId }) :
    (∀ cell, lookupCell s.results docId colId = some cell →
      ∃ s', handleVerifyCell s = some s' ∧
        lookupCell s'.results docId colId =
          some { cell with status := some ReviewStatus.verified } ∧
        (∀ d c, d ≠ docId ∨ c ≠ colId →
          lookupCell s'.results d c = lookupCell s.results d c) ∧
        s'.documents = s.documents) ∧
    (lookupCell s.results docId colId = none → handleVerifyCell s = none) := by
  constructor
  · intro cell hcell
    refine ⟨{ s with
        results := verifiedStore s.results docId colId cell }, ?_, ?_, ?_, rfl⟩
    · unfold handleVerifyCell
      rw [hsel]
      dsimp only
      unfold verifyCellUpdate
      rw [hcell]
      rfl
    · unfold lookupCell verifiedStore
      simp
    · intro d c hdc
      by_cases hd : d = docId
      · subst hd
        have hc : c ≠ colId := by
          rcases hdc with h | h
          · exact absurd rfl h
          · exact h
        unfold lookupCell verifiedStore
        cases hrow : s.results d with
        | none => simp [hc, hrow]
        | some row => simp [hc, hrow]
      · unfold lookupCell verifiedStore
        simp [hd]
  · intro hcell
    unfold handleVerifyCell
    rw [hsel]
    dsimp only
    unfold verifyCellUpdate
    rw [hcell]
    rfl

/-- Witness for C9: verifying the selected cell (A, colX) of the concrete
state marks exactly it `verified`. -/
theorem verify_cell_overlay_witness :
    (sampleAppState.selectedCell =
      some { docId := "A", colId := "colX" }) ∧
    (lookupCell sampleAppState.results "A" "colX" = some sampleCellX) ∧
    (∃ s', handleVerifyCell sampleAppState = some s' ∧
      lookupCell s'.results "A" "colX" =
        some { sampleCellX with status := some ReviewStatus.verified } ∧
      (∀ d c, d ≠ "A" ∨ c ≠ "colX" →
        lookupCell s'.results d c = lookupCell sampleAppState.results d c) ∧
      s'.documents = sampleAppState.documents) :=
  ⟨rfl, by decide,
   (verify_cell_overlay sampleAppState "A" "colX" rfl).1 sampleCellX
     (by decide)⟩

/-! ## CSV export (`handleExportCSV`)

```
const headerRow = ['Document Name', ...columns.map(c => c.name)];
const rows = documents.map(doc => {
  const rowData = [doc.name];
  columns.forEach(col => {
    const cell = results[doc.id]?.[col.id];
    const val = cell ? cell.value.replace(/"/g, '""') : "";
    rowData.push(`"${val}"`);
  });
  return rowData.join(",");
});
const csvContent = [headerRow.join(","), ...rows].join("\n");
```
-/

/-- `value.replace(/"/g, '""')` — double every embedded double quote. -/
def escapeQuotes (sv : String) : String :=
  String.mk (sv.data.flatMap (fun ch => if ch = '"' then ['"', '"'] else [ch]))

/-- The rendered field for one cell lookup: escaped value (or empty string
for a missing cell) wrapped in double quotes. -/
def csvField (cellOpt : Option ExtractionCell) : String :=
  let val :=
    match cellOpt with
    | some cell => escapeQuotes cell.value
    | none => ""
  "\"" ++ val ++ "\""

def csvRow (results : ExtractionResult) (columns : List Column)
    (doc : DocumentFile) : String :=
  String.intercalate ","
    (doc.name :: columns.map (fun col => csvField (lookupCell results doc.id col.id)))

def csvHeaderRow (columns : List Column) : String :=
  String.intercalate "," ("Document Name" :: columns.map (fun c => c.name))

def csvRows (documents : List DocumentFile) (columns : List Column)
    (results : ExtractionResult) : List String :=
  documents.map (csvRow results columns)

def csvContent (documents : List DocumentFile) (columns : List Column)
    (results : ExtractionResult) : String :=
  String.intercalate "\n" (csvHeaderRow columns :: csvRows documents columns results)

/-- The spec's example cell value `He said "hi"`. -/
def quoteExampleCell : ExtractionCell :=
  { value := "He said \"hi\"", confidence := Confidence.medium, quote := "q",
    page := 3, reasoning := "r", status := none }

/-- **C7**: CSV export rendering: the export emits one row per document,
each row joining the document name with one field per column; a present
cell's field is its value with every embedded double quote doubled, wrapped
in double quotes, and a missing cell's field is the empty string (wrapped in
the same double quotes); in particular the value `He said "hi"` renders as
`"He said ""hi"""`. -/
theorem csv_export_rendering (documents : List DocumentFile)
    (columns : List Column) (results : ExtractionResult)
    (docId colId : String) :
    ((csvRows documents columns results).length = documents.length) ∧
    (∀ doc ∈ documents, csvRow results columns doc =
      String.intercalate ","
        (doc.name ::
          columns.map (fun col => csvField (lookupCell results doc.id col.id)))) ∧
    (∀ cell, lookupCell results docId colId = some cell →
      csvField (lookupCell results docId colId) =
        "\"" ++ escapeQuotes cell.value ++ "\"") ∧
    (lookupCell results docId colId = none →
      csvField (lookupCell results docId colId) = "\"\"") ∧
    (csvField (some quoteExampleCell) = "\"He said \"\"hi\"\"\"") := by
  refine ⟨?_, ?_, ?_, ?_, ?_⟩
  · simp [csvRows]
  · intro doc hdoc
    rfl
  · intro cell hcell
    rw [hcell]
    rfl
  · intro hcell
    rw [hcell]
    rfl
  · decide

/-- Witness for C7: field rendering on the concrete store, for a present
cell and a missing one. -/
theorem csv_export_rendering_witness :
    (lookupCell sampleStoreAB "A" "colX" = some sampleCellX ∧
      csvField (lookupCell sampleStoreAB "A" "colX") =
        "\"" ++ escapeQuotes sampleCellX.value ++ "\"") ∧
    (lookupCell sampleStoreAB "A" "missing" = none ∧
      csvField (lookupCell sampleStoreAB "A" "missing") = "\"\"") :=
  ⟨⟨by decide,
    (csv_export_rendering [sampleDocA] [sampleColX] sampleStoreAB "A"
        "colX").2.2.1 sampleCellX (by decide)⟩,
   ⟨by decide,
    (csv_export_rendering [sampleDocA] [sampleColX] sampleStoreAB "A"
        "missing").2.2.2.1 (by decide)⟩⟩

/-! ## Column library merge (`utils/fileStorage.ts`)

```
const mergeLibraries = (existing, imported) => {
  const existingIds = new Set(existing.templates.map(t => t.id));
  const newTemplates = imported.templates.filter(t => !existingIds.has(t.id));
  return { version: 1, templates: [...existing.templates, ...newTemplates] };
};
```
-/

structure ColumnTemplate where
  id : String
  name : String
  type : ColumnType
  prompt : String
  category : Option String
  createdAt : String
deriving DecidableEq, Repr

structure ColumnLibrary where
  version : Nat
  templates : List ColumnTemplate
deriving DecidableEq, Repr

def mergeLibraries (existing imported : ColumnLibrary) : ColumnLibrary :=
  let existingIds := existing.templates.map (fun t => t.id)
  { version := 1,
    templates := existing.templates ++
      imported.templates.filter (fun t => !(existingIds.contains t.id)) }

theorem mergeLibraries_version (E I : ColumnLibrary) :
    (mergeLibraries E I).version = 1 := rfl

theorem mergeLibraries_templates (E I : ColumnLibrary) :
    (mergeLibraries E I).templates =
      E.templates ++ I.templates.filter
        (fun t => !((E.templates.map (fun t => t.id)).contains t.id)) := rfl

theorem columnLibrary_eq (a b : ColumnLibrary) (hv : a.version = b.version)
    (ht : a.templates = b.templates) : a = b := by
  cases a
  cases b
  simp_all

/-- **C10**: Importing a column library merges by template id: the merged
library keeps every template of the existing library, in order, as a prefix;
appends exactly those imported templates whose id does not occur in the
existing library; fixes the version at 1; and importing the same library a
second time adds nothing (idempotence). -/
theorem merge_libraries_by_id (E I : ColumnLibrary) :
    ((mergeLibraries E I).version = 1) ∧
    ((mergeLibraries E I).templates.take E.templates.length = E.templates) ∧
    ((mergeLibraries E I).templates.drop E.templates.length =
      I.templates.filter
        (fun t => !((E.templates.map (fun t => t.id)).contains t.id))) ∧
    (mergeLibraries (mergeLibraries E I) I = mergeLibraries E I) := by
  refine ⟨rfl, ?_, ?_, ?_⟩
  · rw [mergeLibraries_templates]
    exact List.take_left _ _
  · rw [mergeLibraries_templates]
    exact List.drop_left _ _
  · have hnil : I.templates.filter
        (fun t =>
          !(((mergeLibraries E I).templates.map (fun t => t.id)).contains t.id)) =
        [] := by
      rw [List.filter_eq_nil_iff]
      intro t ht h
      have hco : (((mergeLibraries E I).templates.map (fun t => t.id)).contains
          t.id) = false := by
        simpa using h
      have hmem : t.id ∈ (mergeLibraries E I).templates.map (fun t => t.id) := by
        rw [mergeLibraries_templates, List.map_append]
        by_cases hE : t.id ∈ E.templates.map (fun t => t.id)
        · exact List.mem_append_left _ hE
        · refine List.mem_append_right _ ?_
          refine List.mem_map.mpr ⟨t, ?_, rfl⟩
          refine List.mem_filter.mpr ⟨ht, ?_⟩
          cases hb : (E.templates.map (fun t => t.id)).contains t.id with
          | false => simp
          | true => exact absurd (List.elem_iff.mp hb) hE
      have hco' : (((mergeLibraries E I).templates.map (fun t => t.id)).contains
          t.id) = true := List.elem_iff.mpr hmem
      rw [hco] at hco'
      exact Bool.noConfusion hco'
    apply columnLibrary_eq
    · rfl
    · rw [mergeLibraries_templates (mergeLibraries E I) I, hnil, List.append_nil]

def sampleTemplate1 : ColumnTemplate :=
  { id := "tpl1", name := "T1", type := ColumnType.text, prompt := "p1",
    category := none, createdAt := "2024-01-01" }

def sampleTemplate2 : ColumnTemplate :=
  { id := "tpl2", name := "T2", type := ColumnType.date, prompt := "p2",
    category := some "Legal", createdAt := "2024-01-02" }

def sampleLibE : ColumnLibrary :=
  { version := 1, templates := [sampleTemplate1] }

def sampleLibI : ColumnLibrary :=
  { version := 1, templates := [sampleTemplate1, sampleTemplate2] }

/-- Witness for C10: merging a library that shares template `tpl1` appends
only `tpl2`, and importing it again changes nothing. -/
theorem merge_libraries_by_id_witness :
    ((mergeLibraries sampleLibE sampleLibI).templates =
      [sampleTemplate1, sampleTemplate2]) ∧
    (mergeLibraries (mergeLibraries sampleLibE sampleLibI) sampleLibI =
      mergeLibraries sampleLibE sampleLibI) :=
  ⟨by decide, (merge_libraries_by_id sampleLibE sampleLibI).2.2.2⟩

/-- Witness for C1 at a concrete empty store: both planner characterizations
instantiated. -/
theorem planner_exact_witness :
    ((sampleDocA, sampleColX) ∈
        planTasks [sampleDocA] [sampleColX] emptyResults false ↔
      sampleDocA ∈ [sampleDocA] ∧ sampleColX ∈ [sampleColX] ∧
        lookupCell emptyResults sampleDocA.id sampleColX.id = none) ∧
    ((sampleDocA, sampleColX) ∈
        planTasks [sampleDocA] [sampleColX] emptyResults true ↔
      sampleDocA ∈ [sampleDocA] ∧ sampleColX ∈ [sampleColX]) :=
  planner_exact [sampleDocA] [sampleColX] emptyResults sampleDocA sampleColX

end TabularReview
